import Mathlib

/-!
# LPR GateBox — verification of the stream-to-decision design against the code

Shallow embedding of the parts of the `lpr_gatebox` repository that the
specification talks about: plate normalization and the whitelist add operation
(`ui/src/api.js`), the event-stream deduplication hook
(`ui/src/hooks/useEventsStream.ts`), ROI string parsing
(`ui/src/pages/CameraPage.tsx`), the camera-test API wrapper
(`ui/src/api/gatebox.ts`), and — where the repository ships only the UI,
README and changelogs but not the Python services — models of the
`gatebox` decision engine and the `rtsp_worker` sanity filter and best-crop
selector built from the design document's words.

JavaScript strings are modelled as `List Char` / `String`; JavaScript numbers
are modelled as exact rationals `ℚ` (no floating-point rounding or overflow).
-/

namespace GateBox

/-! ## JavaScript character and string primitives -/

/-- Characters matched by the JavaScript regex class `\s` (the set used both by
`String.prototype.trim` and by the separator-stripping regex
`/[\s\-_]+/g` in the UI): ASCII whitespace, NBSP, the Unicode space
separators, line/paragraph separators and the BOM. -/
def jsWs (c : Char) : Bool :=
  decide ((9 ≤ c.toNat ∧ c.toNat ≤ 13) ∨ c.toNat = 32 ∨ c.toNat = 160 ∨
    c.toNat = 5760 ∨ (8192 ≤ c.toNat ∧ c.toNat ≤ 8202) ∨ c.toNat = 8232 ∨
    c.toNat = 8233 ∨ c.toNat = 8239 ∨ c.toNat = 8287 ∨ c.toNat = 12288 ∨
    c.toNat = 65279)

/-- Model of JavaScript `String.prototype.toUpperCase` on the alphabets this
UI works with: basic Latin `a`–`z` and Cyrillic `а`–`я`, `ё` (Russian plates).
Every other character maps to itself. -/
def jsToUpper (c : Char) : Char :=
  if 97 ≤ c.toNat ∧ c.toNat ≤ 122 then Char.ofNat (c.toNat - 32)
  else if 1072 ≤ c.toNat ∧ c.toNat ≤ 1103 then Char.ofNat (c.toNat - 32)
  else if c.toNat = 1105 then Char.ofNat 1025
  else c

/-- JavaScript `String.prototype.trim`: drop `\s` characters from both ends. -/
def jsTrimChars (l : List Char) : List Char :=
  ((l.dropWhile jsWs).reverse.dropWhile jsWs).reverse

/-- A character removed by the regex `/[\s\-_]+/g`: whitespace, hyphen or
underscore. -/
def isSepChar (c : Char) : Bool := jsWs c || c == '-' || c == '_'

/-! ## Plate normalization and the whitelist add operation (`ui/src/api.js`)

`normPlate` below is the pipeline
`String(x || "").trim().toUpperCase().replace(/[\s\-_]+/g, "")`, which appears
verbatim in `ui/src/pages/Whitelist.tsx` (`normPlate`) and inline in
`addWhitelistPlate` in `ui/src/api.js`. -/

/-- `normPlate` from `ui/src/pages/Whitelist.tsx`:
trim, uppercase, then delete every whitespace/hyphen/underscore character. -/
def normPlate (s : String) : String :=
  ⟨((jsTrimChars s.data).map jsToUpper).filter (fun c => !isSepChar c)⟩

/-- `String(x).trim().toUpperCase()` — the (weaker) normalization
`addWhitelistPlate` applies to the entries already stored in the whitelist. -/
def trimUpper (s : String) : String :=
  ⟨(jsTrimChars s.data).map jsToUpper⟩

/-- Result value of `addWhitelistPlate`: `{ok:false, reason}` or
`{ok:true, plate}`. -/
inductive AddResult where
  | err (reason : String)
  | ok (plate : String)
deriving DecidableEq

/-- JavaScript `Array.from(new Set(l))`: keep the first occurrence of each
element, in order.  The extra `seenAcc` argument is the set of elements already
emitted. -/
def jsSetDedupAux {α : Type} [DecidableEq α] : List α → List α → List α
  | [], _ => []
  | a :: rest, seenAcc =>
    if a ∈ seenAcc then jsSetDedupAux rest seenAcc
    else a :: jsSetDedupAux rest (a :: seenAcc)

/-- JavaScript `Array.from(new Set(l))`. -/
def jsSetDedup {α : Type} [DecidableEq α] (l : List α) : List α :=
  jsSetDedupAux l []

/-- `addWhitelistPlate` from `ui/src/api.js`, with the whitelist store made an
explicit argument (the code reads it with `getWhitelist()` and writes it with
`putWhitelist`; `reloadWhitelist()` does not change the stored list).  Returns
the result value together with the store after the call. -/
def addWhitelistPlate (plate : String) (store : List String) :
    AddResult × List String :=
  if normPlate plate = "" then (.err "empty", store)
  else if normPlate plate ∈ store.map trimUpper then (.ok (normPlate plate), store)
  else (.ok (normPlate plate), jsSetDedup (normPlate plate :: store.map trimUpper))

/-! ## Event stream deduplication (`ui/src/hooks/useEventsStream.ts`) -/

/-- One event of the structured stream, with the fields `keyOf` and `ingest`
read.  `ts` is `Option ℚ` because a payload arriving over SSE/polling may lack
a numeric `ts` (the code guards with `typeof it.ts !== "number"`). -/
structure EventItem where
  ts : Option ℚ
  plate : String
  status : Option String
  conf : Option ℚ
  message : Option String
deriving DecidableEq

/-- The deduplication key built by `keyOf`:
`` `${it.ts}|${it.plate || ""}|${it.status || ""}|${it.conf ?? ""}|${it.message || ""}` ``.
We keep the five components as a tuple instead of concatenating them into one
string; the JavaScript rendering is injective on these components (a missing
`status`/`message` renders like the empty string, hence `Option.getD ""`). -/
abbrev EventKey := Option ℚ × String × String × Option ℚ × String

/-- `keyOf` from `ui/src/hooks/useEventsStream.ts`. -/
def keyOf (it : EventItem) : EventKey :=
  (it.ts, it.plate, it.status.getD "", it.conf, it.message.getD "")

/-- The state held by `useEventsStream`: the `seen` key set (a `useRef` `Set`),
the retained `items` list (newest first) and `lastTsRef`. -/
structure StreamState where
  seen : List EventKey
  items : List EventItem
  lastTs : ℚ
deriving DecidableEq

/-- The state right after the hook initializes (or resets on an option
change): empty `seen`, empty list, `lastTsRef = 0`. -/
def initStreamState : StreamState := ⟨[], [], 0⟩

/-- The body of the `for` loop of `ingest`: skip an item without numeric `ts`,
skip an item whose key was already seen, otherwise record the key, `unshift`
the item and advance `lastTsRef`. -/
def ingestOne (st : StreamState) (it : EventItem) : StreamState :=
  match it.ts with
  | none => st
  | some t =>
    if keyOf it ∈ st.seen then st
    else ⟨keyOf it :: st.seen, it :: st.items,
      if st.lastTs < t then t else st.lastTs⟩

/-- `ingest` from `ui/src/hooks/useEventsStream.ts`: return unchanged on an
empty batch, else run the loop and cap the list at `limit` via
`out.slice(0, limit)`. -/
def ingest (limit : ℕ) (st : StreamState) (batch : List EventItem) : StreamState :=
  if batch = [] then st
  else
    ⟨(batch.foldl ingestOne st).seen,
     if limit < (batch.foldl ingestOne st).items.length
     then (batch.foldl ingestOne st).items.take limit
     else (batch.foldl ingestOne st).items,
     (batch.foldl ingestOne st).lastTs⟩

/-- A whole session of the hook: any sequence of batches (initial load, SSE
single-item batches, polling batches) ingested from the initial state. -/
def runBatches (limit : ℕ) (batches : List (List EventItem)) : StreamState :=
  batches.foldl (ingest limit) initStreamState

/-! ## Gate Decision Engine (modelled from the spec)

The `gatebox` Python service (OCR → normalize → format check → confirm →
whitelist → publish) is not part of the files shipped in this repository
snapshot; only its UI, README and changelogs are.  The definitions below are
therefore modelled from the design document, §4.8 "Gate Decision Engine". -/

/-- Modelled from the spec: the Gate Decision Engine configuration (§4.8/§6):
minimum confidence, confirm count, confirm window seconds, cooldown seconds,
region-format check enable and the whitelist source. -/
structure GateCfg where
  minConf : ℚ
  confirmN : ℕ
  confirmWindowSec : ℚ
  cooldownSec : ℚ
  whitelist : List String
  formatCheck : Bool
  formatOk : String → Bool

/-- Modelled from the spec: `ConfirmationState` per normalized plate —
consecutive-match counter, window start time, cooldown-until time (§3). -/
structure PlateState where
  count : ℕ
  windowStart : ℚ
  cooldownUntil : Option ℚ
deriving DecidableEq

/-- The Gate Decision Engine's per-plate state map. -/
def GateState := String → Option PlateState

/-- Empty confirmation map. -/
def initGateState : GateState := fun _ => none

/-- Point update of the confirmation map. -/
def updateState (st : GateState) (p : String) (ps : PlateState) : GateState :=
  fun q => if q = p then some ps else st q

/-- A reading arriving from the OCR boundary: raw text, confidence, time. -/
structure Reading where
  text : String
  conf : ℚ
  t : ℚ
deriving DecidableEq

/-- An emitted Event record (timestamp, raw and normalized plate, confidence,
status, reason). -/
structure GEvent where
  ts : ℚ
  plateRaw : String
  plateNorm : String
  conf : ℚ
  status : String
  reason : String
deriving DecidableEq

/-- Build an event for reading `r`. -/
def mkEvent (r : Reading) (p status reason : String) : GEvent :=
  ⟨r.t, r.text, p, r.conf, status, reason⟩

/-- Modelled from the spec: "If a plate arrives while still inside its
cooldown" — the plate's state has a cooldown-until time strictly after `t`. -/
def cooldownActive (st : GateState) (p : String) (t : ℚ) : Bool :=
  match st p with
  | some ps =>
    match ps.cooldownUntil with
    | some cu => decide (t < cu)
    | none => false
  | none => false

/-- Modelled from the spec: the new counter and window start for a reading at
time `t` — "first in a new window, start window, count = 1; if within the
active window and matching, increment count"; a lapsed window resets to a
fresh count of 1. -/
def nextCount (st : GateState) (p : String) (t : ℚ) (window : ℚ) : ℕ × ℚ :=
  match st p with
  | some ps =>
    if 0 < ps.count ∧ t - ps.windowStart ≤ window then (ps.count + 1, ps.windowStart)
    else (1, t)
  | none => (1, t)

/-- Modelled from the spec: one decision cycle of the Gate Decision Engine
(§4.8) for an incoming reading. 1. normalize; 2. optional format/region
validation → `invalid`; 3. confidence gate → `denied`/`low_conf`;
4. cooldown → `cooldown` and no action; confirmation: count ≥ `confirm_n` →
`sent` (whitelisted) or `denied`/`not_in_whitelist`, either way starting a
cooldown; otherwise advance the counter silently (the spec emits no decisive
event for an intermediate counting step). Returns the emitted event (if any)
and the next state. -/
def gateStep (cfg : GateCfg) (st : GateState) (r : Reading) :
    Option GEvent × GateState :=
  if cfg.formatCheck && !(cfg.formatOk (normPlate r.text)) then
    (some (mkEvent r (normPlate r.text) "invalid" "invalid_format_or_region"), st)
  else if r.conf < cfg.minConf then
    (some (mkEvent r (normPlate r.text) "denied" "low_conf"), st)
  else if cooldownActive st (normPlate r.text) r.t then
    (some (mkEvent r (normPlate r.text) "cooldown" "cooldown_active"), st)
  else if cfg.confirmN ≤ (nextCount st (normPlate r.text) r.t cfg.confirmWindowSec).1 then
    if normPlate r.text ∈ cfg.whitelist then
      (some (mkEvent r (normPlate r.text) "sent" "ok"),
       updateState st (normPlate r.text)
         ⟨0, (nextCount st (normPlate r.text) r.t cfg.confirmWindowSec).2,
          some (r.t + cfg.cooldownSec)⟩)
    else
      (some (mkEvent r (normPlate r.text) "denied" "not_in_whitelist"),
       updateState st (normPlate r.text)
         ⟨0, (nextCount st (normPlate r.text) r.t cfg.confirmWindowSec).2,
          some (r.t + cfg.cooldownSec)⟩)
  else
    (none,
     updateState st (normPlate r.text)
       ⟨(nextCount st (normPlate r.text) r.t cfg.confirmWindowSec).1,
        (nextCount st (normPlate r.text) r.t cfg.confirmWindowSec).2, none⟩)

/-! ## Sanity filter (modelled from the spec / README sanity ENV) -/

/-- Modelled from the spec: the `rtsp_worker` sanity configuration — the ENV
knobs `SANITY_ASPECT_MIN_BASE`, `SANITY_ASPECT_MIN_ADAPTIVE`,
`SANITY_ADAPTIVE_CONF_MIN`, `SANITY_ADAPTIVE_AREA_MIN`, `SANITY_MIN_WIDTH_PX`,
`SANITY_MIN_HEIGHT_PX` of README §"rtsp_worker: sanity ENV". -/
structure SanityCfg where
  aspectMinBase : ℚ
  aspectMinAdaptive : ℚ
  adaptiveConfMin : ℚ
  adaptiveAreaMin : ℚ
  minWidthPx : ℚ
  minHeightPx : ℚ

/-- A candidate crop's geometry inputs: pixel width/height, detection
confidence and bbox area ratio relative to the frame. -/
structure CropInfo where
  width : ℚ
  height : ℚ
  conf : ℚ
  areaRatio : ℚ

/-- Modelled from the spec: the adaptive relaxation triggers exactly when both
the confidence and the area ratio reach their adaptive minimums ("при высоком
conf и достаточной площади bbox включается adaptive-порог"). -/
def sanityAdaptiveTrigger (cfg : SanityCfg) (c : CropInfo) : Bool :=
  decide (cfg.adaptiveConfMin ≤ c.conf ∧ cfg.adaptiveAreaMin ≤ c.areaRatio)

/-- The aspect threshold in force for a crop: the adaptive one when the
trigger holds, the base one otherwise. -/
def sanityAspectMin (cfg : SanityCfg) (c : CropInfo) : ℚ :=
  if sanityAdaptiveTrigger cfg c then cfg.aspectMinAdaptive else cfg.aspectMinBase

/-- Modelled from the spec: the sanity filter — minimum absolute pixel
width/height are enforced regardless of aspect, and the aspect ratio
(width/height) must exceed the threshold in force. -/
def sanityPass (cfg : SanityCfg) (c : CropInfo) : Bool :=
  decide (cfg.minWidthPx ≤ c.width ∧ cfg.minHeightPx ≤ c.height ∧
    sanityAspectMin cfg c < c.width / c.height)

/-! ## Best-crop selector (modelled from the spec / README best-crop ENV) -/

/-- A buffered best-crop candidate with its score inputs (`id` distinguishes
candidates with equal scores). -/
structure Candidate where
  id : ℕ
  conf : ℚ
  areaRatio : ℚ
  sharpness : ℚ
deriving DecidableEq

/-- Modelled from the spec: `score = conf * area_ratio * sharpness`. -/
def score (c : Candidate) : ℚ := c.conf * c.areaRatio * c.sharpness

/-- Insert a candidate into a list kept sorted by descending score. -/
def insertByScore (c : Candidate) : List Candidate → List Candidate
  | [] => [c]
  | x :: xs => if score x ≤ score c then c :: x :: xs else x :: insertByScore c xs

/-- Sort a candidate buffer by descending score (insertion sort). -/
def sortByScore : List Candidate → List Candidate
  | [] => []
  | c :: cs => insertByScore c (sortByScore cs)

/-- Modelled from the spec: at window close, the top-scoring candidate(s) up
to `max_send` are forwarded; the rest are discarded. -/
def selectBest (maxSend : ℕ) (buf : List Candidate) : List Candidate :=
  (sortByScore buf).take maxSend

/-! ## ROI string parsing (`ui/src/pages/CameraPage.tsx`, both versions)

The parsers call JavaScript `Number` on each comma-separated field and filter
with `Number.isFinite`.  `jsNumFinite?` below models `Number(s)` restricted to
finite results, over exact rationals: it returns the parsed value for a
decimal literal (with optional sign, fraction and exponent) or a
hex/octal/binary literal, `some 0` for a blank string, and `none` when
JavaScript would yield `NaN` or `±Infinity` (both fail `Number.isFinite`).
No IEEE-754 rounding or overflow is modelled: values are kept exact. -/

/-- `String.prototype.split(",")`: cut at every comma, keeping empty fields
(an empty string yields one empty field). -/
def jsSplitCommaAux : List Char → List Char → List (List Char)
  | [], acc => [acc.reverse]
  | c :: rest, acc =>
    if c = ',' then acc.reverse :: jsSplitCommaAux rest []
    else jsSplitCommaAux rest (c :: acc)

/-- JavaScript `s.split(",")`. -/
def jsSplitComma (s : String) : List String :=
  (jsSplitCommaAux s.data []).map String.mk

/-- Decimal digit value of a character. -/
def decDigit? (c : Char) : Option ℕ :=
  if 48 ≤ c.toNat ∧ c.toNat ≤ 57 then some (c.toNat - 48) else none

/-- Hexadecimal digit value of a character. -/
def hexDigit? (c : Char) : Option ℕ :=
  if 48 ≤ c.toNat ∧ c.toNat ≤ 57 then some (c.toNat - 48)
  else if 97 ≤ c.toNat ∧ c.toNat ≤ 102 then some (c.toNat - 87)
  else if 65 ≤ c.toNat ∧ c.toNat ≤ 70 then some (c.toNat - 55)
  else none

/-- Octal digit value of a character. -/
def octDigit? (c : Char) : Option ℕ :=
  if 48 ≤ c.toNat ∧ c.toNat ≤ 55 then some (c.toNat - 48) else none

/-- Binary digit value of a character. -/
def binDigit? (c : Char) : Option ℕ :=
  if c.toNat = 48 then some 0 else if c.toNat = 49 then some 1 else none

/-- Take the longest prefix of decimal digits; return their values and the
rest of the input. -/
def takeDecDigits : List Char → List ℕ × List Char
  | [] => ([], [])
  | c :: rest =>
    match decDigit? c with
    | some d => (d :: (takeDecDigits rest).1, (takeDecDigits rest).2)
    | none => ([], c :: rest)

/-- Digits to a natural number in the given base. -/
def natOfDigits (base : ℕ) (ds : List ℕ) : ℕ :=
  ds.foldl (fun acc d => acc * base + d) 0

/-- Parse the exponent digits of a decimal literal; `sgn` is the exponent
sign.  The whole remaining input must be digits. -/
def parseExpDigits (l : List Char) (m : ℚ) (sgn : ℤ) : Option ℚ :=
  if (takeDecDigits l).1 = [] ∨ (takeDecDigits l).2 ≠ [] then none
  else some (m * (10 : ℚ) ^ (sgn * (natOfDigits 10 (takeDecDigits l).1 : ℤ)))

/-- Parse an optional exponent part (`e`/`E`, optional sign, digits) after a
mantissa `m`; anything else trailing makes the literal invalid. -/
def parseExpPart (l : List Char) (m : ℚ) : Option ℚ :=
  match l with
  | [] => some m
  | e :: r1 =>
    if e = 'e' ∨ e = 'E' then
      match r1 with
      | '+' :: r2 => parseExpDigits r2 m 1
      | '-' :: r2 => parseExpDigits r2 m (-1)
      | _ => parseExpDigits r1 m 1
    else none

/-- Parse an unsigned decimal literal `digits [. digits] [exponent]` (at
least one mantissa digit required somewhere). -/
def parseUnsignedDec (l : List Char) : Option ℚ :=
  match (takeDecDigits l).2 with
  | '.' :: r2 =>
    if (takeDecDigits l).1 = [] ∧ (takeDecDigits r2).1 = [] then none
    else
      parseExpPart (takeDecDigits r2).2
        ((natOfDigits 10 (takeDecDigits l).1 : ℚ) +
          (natOfDigits 10 (takeDecDigits r2).1 : ℚ) /
            (10 : ℚ) ^ (takeDecDigits r2).1.length)
  | _ =>
    if (takeDecDigits l).1 = [] then none
    else parseExpPart (takeDecDigits l).2 (natOfDigits 10 (takeDecDigits l).1 : ℚ)

/-- Parse a whole non-decimal literal body in the given base; all remaining
characters must be digits of that base and at least one is required. -/
def parseRadixDigits (base : ℕ) (digitOf : Char → Option ℕ) :
    List Char → List ℕ → Option ℚ
  | [], acc => if acc = [] then none else some (natOfDigits base acc.reverse : ℚ)
  | c :: rest, acc =>
    match digitOf c with
    | some d => parseRadixDigits base digitOf rest (d :: acc)
    | none => none

/-- A signed/unsigned decimal tail of `Number(s)`; the literal `Infinity`
converts to an infinity, which is not finite, hence `none` here. -/
def jsDecTail (negative : Bool) (l : List Char) : Option ℚ :=
  if l = "Infinity".data then none
  else (parseUnsignedDec l).map (fun q => if negative then -q else q)

/-- Model of JavaScript `Number(s)` restricted to finite results (`none` when
the conversion yields `NaN` or `±Infinity`), over exact rationals. -/
def jsNumFinite? (s : String) : Option ℚ :=
  match jsTrimChars s.data with
  | [] => some 0
  | '0' :: 'x' :: rest => parseRadixDigits 16 hexDigit? rest []
  | '0' :: 'X' :: rest => parseRadixDigits 16 hexDigit? rest []
  | '0' :: 'o' :: rest => parseRadixDigits 8 octDigit? rest []
  | '0' :: 'O' :: rest => parseRadixDigits 8 octDigit? rest []
  | '0' :: 'b' :: rest => parseRadixDigits 2 binDigit? rest []
  | '0' :: 'B' :: rest => parseRadixDigits 2 binDigit? rest []
  | '+' :: rest => jsDecTail false rest
  | '-' :: rest => jsDecTail true rest
  | t => jsDecTail false t

/-- A polygon point, as in `parseRoiStrAsPoly`. -/
structure Pt where
  x : ℚ
  y : ℚ
deriving DecidableEq

/-- The checks `parseRoiStr` performs on the converted fields:
`parts.length !== 4 || parts.some((x) => !Number.isFinite(x))` returns `null`,
then destructure `[x1, y1, x2, y2]` and return `null` when
`x2 <= x1 || y2 <= y1`. -/
def roiCheck (parts : List (Option ℚ)) : Option (ℚ × ℚ × ℚ × ℚ) :=
  if parts.length != 4 || parts.any (fun p => p.isNone) then none
  else
    match parts with
    | [some x1, some y1, some x2, some y2] =>
      if x2 ≤ x1 ∨ y2 ≤ y1 then none else some (x1, y1, x2, y2)
    | _ => none

/-- `parseRoiStr` from `ui/src/pages/CameraPage.tsx`: split on commas, convert
each trimmed field with `Number`, require exactly four finite values and
`x2 > x1`, `y2 > y1`, else `null`.  (`Number` itself ignores surrounding
whitespace, so the source's `x.trim()` is absorbed into `jsNumFinite?`.) -/
def parseRoiStr (s : String) : Option (ℚ × ℚ × ℚ × ℚ) :=
  roiCheck ((jsSplitComma s).map jsNumFinite?)

/-- The same checks as `roiCheck`, returning the four rectangle corners of
`parseRoiStrAsPoly`, with `[]` in place of `null`. -/
def roiPolyCheck (parts : List (Option ℚ)) : List Pt :=
  if parts.length != 4 || parts.any (fun p => p.isNone) then []
  else
    match parts with
    | [some x1, some y1, some x2, some y2] =>
      if x2 ≤ x1 ∨ y2 ≤ y1 then []
      else [⟨x1, y1⟩, ⟨x2, y1⟩, ⟨x2, y2⟩, ⟨x1, y2⟩]
    | _ => []

/-- `parseRoiStrAsPoly` from the other `CameraPage.tsx` version (same split,
conversion and checks as `parseRoiStr`), returning the rectangle's corner
polygon, or `[]` instead of `null`. -/
def parseRoiStrAsPoly (s : String) : List Pt :=
  roiPolyCheck ((jsSplitComma s).map jsNumFinite?)

/-- The corner polygon of a parsed rectangle, `[]` when there is none — the
claim's description of how `parseRoiStrAsPoly` relates to `parseRoiStr`. -/
def roiCorners : Option (ℚ × ℚ × ℚ × ℚ) → List Pt
  | some (x1, y1, x2, y2) => [⟨x1, y1⟩, ⟨x2, y1⟩, ⟨x2, y2⟩, ⟨x1, y2⟩]
  | none => []

/-- The claim's wording of the ROI checks, written independently of the
source's control flow: exactly four finite numbers with `x2 > x1` and
`y2 > y1`, and the rectangle is those four numbers. -/
def roiSpecCheck (parts : List (Option ℚ)) : Option (ℚ × ℚ × ℚ × ℚ) :=
  match parts with
  | [some x1, some y1, some x2, some y2] =>
    if x1 < x2 ∧ y1 < y2 then some (x1, y1, x2, y2) else none
  | _ => none

/-- The claim's wording of ROI parsing: the input splits on commas into four
finite numbers forming a proper rectangle. -/
def roiSpecParse (s : String) : Option (ℚ × ℚ × ℚ × ℚ) :=
  roiSpecCheck ((jsSplitComma s).map jsNumFinite?)

/-! ## Camera test wrapper (`ui/src/api/gatebox.ts`) -/

/-- An HTTP response as the wrapper sees it: status code and body text. -/
structure HttpResp where
  status : ℕ
  body : String
deriving DecidableEq

/-- `Response.ok`: status in the range 200–299. -/
def respOk (r : HttpResp) : Bool := decide (200 ≤ r.status ∧ r.status < 300)

/-- `fetchWithFallback` from `ui/src/api/gatebox.ts` as a function of the two
possible responses: return the `/api/v1` response `r1` if it is ok; retry
against legacy `/api` (response `r2`) when `r1.status` is in
`acceptLegacyOn`; otherwise return `r1`. -/
def fetchWithFallback (acceptLegacyOn : List ℕ) (r1 r2 : HttpResp) : HttpResp :=
  if respOk r1 then r1
  else if r1.status ∈ acceptLegacyOn then r2
  else r1

/-- The JSON body `testCamera` posts: `{ rtsp_url, timeout_sec: 6.0 }`. -/
structure CameraTestPayload where
  rtspUrl : String
  timeoutSec : ℚ
deriving DecidableEq

/-- The request payload `testCamera` builds for a URL. -/
def testCameraPayload (url : String) : CameraTestPayload := ⟨url, 6⟩

/-- The value `testCamera` resolves to: the parsed body on success, or
`{ ok: false, error, detail }` on a non-ok response. -/
inductive CameraTestOutcome where
  | success (body : String)
  | failure (error : String) (detail : String)
deriving DecidableEq

/-- Decimal rendering of a natural number (JS template interpolation of the
status code), fuel-based so it reduces in the kernel. -/
def natToCharsAux : ℕ → ℕ → List Char
  | 0, _ => []
  | fuel + 1, n =>
    if n = 0 then []
    else natToCharsAux fuel (n / 10) ++ [Char.ofNat (48 + n % 10)]

/-- JS `String(n)` for a natural number. -/
def jsNatToString (n : ℕ) : String :=
  if n = 0 then "0" else ⟨natToCharsAux (n + 1) n⟩

/-- `testCamera` from `ui/src/api/gatebox.ts`, as a function of the responses
the two fetches would produce: POST with the payload above, fall back to
legacy on 404, and on a non-ok outcome return
`{ ok: false, error: "http_" + status, detail: body }` as a value. -/
def testCamera (r1 r2 : HttpResp) : CameraTestOutcome :=
  if respOk (fetchWithFallback [404] r1 r2) then
    .success (fetchWithFallback [404] r1 r2).body
  else
    .failure ("http_" ++ jsNatToString (fetchWithFallback [404] r1 r2).status)
      (fetchWithFallback [404] r1 r2).body

/-! ## Concrete instances used by the claims and their witnesses -/

/-- The configuration of the confirm/cooldown test scenario:
`confirm_n = 2`, `confirm_window_sec = 2.0`, `cooldown_sec = 15`, format check
off, one whitelisted plate. -/
def cfgConfirm : GateCfg := ⟨1, 2, 2, 15, ["A123BC77"], false, fun _ => true⟩

/-- A reading of the whitelisted plate at time `t` with confidence `conf`. -/
def readAt (t conf : ℚ) : Reading := ⟨"A123BC77", conf, t⟩

/-- The engine state after the two confirming readings at `t = 0` and
`t = 1`. -/
def stAfterTwo : GateState :=
  (gateStep cfgConfirm (gateStep cfgConfirm initGateState (readAt 0 1)).2
    (readAt 1 1)).2

/-- A configuration whose confidence gate any zero-confidence reading fails. -/
def cfgLowConf : GateCfg := ⟨1, 1, 1, 1, [], false, fun _ => true⟩

/-- A zero-confidence reading. -/
def readLow : Reading := ⟨"X", 0, 0⟩

/-- The event the engine emits for `readLow` under `cfgLowConf`. -/
def evLowConf : GEvent := ⟨0, "X", "X", 0, "denied", "low_conf"⟩

/-- A confirm/cooldown configuration with an empty whitelist. -/
def cfgDeny : GateCfg := ⟨1, 2, 2, 15, [], false, fun _ => true⟩

/-- A state one hit away from confirmation for the non-whitelisted plate. -/
def stDeny : GateState := updateState initGateState "B777XX" ⟨1, 0, none⟩

/-- The reading that confirms the non-whitelisted plate. -/
def readDeny : Reading := ⟨"B777XX", 1, 0⟩

/-- Best-crop candidates with scores 0.42, 0.55 and 0.30 (area ratio and
sharpness 1, so the score equals the confidence). -/
def candA : Candidate := ⟨1, mkRat 42 100, 1, 1⟩

/-- Score-0.55 candidate. -/
def candB : Candidate := ⟨2, mkRat 55 100, 1, 1⟩

/-- Score-0.30 candidate. -/
def candC : Candidate := ⟨3, mkRat 30 100, 1, 1⟩

/-- The sanity configuration of the claim: base 1.80, adaptive 1.60,
`conf_min` 0.75, `area_min` 0.0065, min 140×60 px. -/
def sanityCfg0 : SanityCfg := ⟨mkRat 18 10, mkRat 16 10, mkRat 3 4, mkRat 13 2000, 140, 60⟩

/-- A 165×100 crop (aspect 1.65) with confidence 0.80 and area ratio 0.01. -/
def cropHigh : CropInfo := ⟨165, 100, mkRat 4 5, mkRat 1 100⟩

/-- The identical crop at confidence 0.60. -/
def cropLow : CropInfo := ⟨165, 100, mkRat 3 5, mkRat 1 100⟩

/-- A concrete stream event for the ingest witness. -/
def evtA : EventItem := ⟨some 1, "A123BC77", some "sent", some 1, some "ok"⟩

/-- A second, distinct stream event. -/
def evtB : EventItem := ⟨some 2, "K555TT", some "denied", none, some "not_in_whitelist"⟩

/-! ## Character and list lemmas -/

theorem toNat_ofNat_valid {n : ℕ} (h : n.isValidChar) : (Char.ofNat n).toNat = n := by
  rw [Char.ofNat, dif_pos h]
  rfl

theorem jsToUpper_latin {c : Char} (h : 97 ≤ c.toNat ∧ c.toNat ≤ 122) :
    jsToUpper c = Char.ofNat (c.toNat - 32) := by
  unfold jsToUpper
  rw [if_pos h]

theorem jsToUpper_cyr {c : Char} (h1 : ¬(97 ≤ c.toNat ∧ c.toNat ≤ 122))
    (h2 : 1072 ≤ c.toNat ∧ c.toNat ≤ 1103) :
    jsToUpper c = Char.ofNat (c.toNat - 32) := by
  unfold jsToUpper
  rw [if_neg h1, if_pos h2]

theorem jsToUpper_yo {c : Char} (h1 : ¬(97 ≤ c.toNat ∧ c.toNat ≤ 122))
    (h2 : ¬(1072 ≤ c.toNat ∧ c.toNat ≤ 1103)) (h3 : c.toNat = 1105) :
    jsToUpper c = Char.ofNat 1025 := by
  unfold jsToUpper
  rw [if_neg h1, if_neg h2, if_pos h3]

theorem jsToUpper_fix {c : Char} (h1 : ¬(97 ≤ c.toNat ∧ c.toNat ≤ 122))
    (h2 : ¬(1072 ≤ c.toNat ∧ c.toNat ≤ 1103)) (h3 : ¬c.toNat = 1105) :
    jsToUpper c = c := by
  unfold jsToUpper
  rw [if_neg h1, if_neg h2, if_neg h3]

theorem jsToUpper_idem (c : Char) : jsToUpper (jsToUpper c) = jsToUpper c := by
  by_cases h1 : 97 ≤ c.toNat ∧ c.toNat ≤ 122
  · have hv : (Char.ofNat (c.toNat - 32)).toNat = c.toNat - 32 :=
      toNat_ofNat_valid (Or.inl (by omega))
    rw [jsToUpper_latin h1]
    exact jsToUpper_fix (by rw [hv]; omega) (by rw [hv]; omega) (by rw [hv]; omega)
  · by_cases h2 : 1072 ≤ c.toNat ∧ c.toNat ≤ 1103
    · have hv : (Char.ofNat (c.toNat - 32)).toNat = c.toNat - 32 :=
        toNat_ofNat_valid (Or.inl (by omega))
      rw [jsToUpper_cyr h1 h2]
      exact jsToUpper_fix (by rw [hv]; omega) (by rw [hv]; omega) (by rw [hv]; omega)
    · by_cases h3 : c.toNat = 1105
      · have hv : (Char.ofNat 1025).toNat = 1025 := by decide
        rw [jsToUpper_yo h1 h2 h3]
        exact jsToUpper_fix (by rw [hv]; omega) (by rw [hv]; omega) (by rw [hv]; omega)
      · rw [jsToUpper_fix h1 h2 h3, jsToUpper_fix h1 h2 h3]

theorem dropWhile_eq_self_of {α : Type} {p : α → Bool} {l : List α}
    (h : ∀ c ∈ l, p c = false) : l.dropWhile p = l := by
  cases l with
  | nil => rfl
  | cons a l => simp [List.dropWhile_cons, h a (List.mem_cons_self a l)]

theorem map_eq_self_of {α : Type} {f : α → α} {l : List α}
    (h : ∀ c ∈ l, f c = c) : l.map f = l := by
  induction l with
  | nil => rfl
  | cons a l ih =>
    rw [List.map_cons, h a (List.mem_cons_self a l),
      ih (fun c hc => h c (List.mem_cons_of_mem a hc))]

theorem jsTrim_eq_self_of {l : List Char} (h : ∀ c ∈ l, jsWs c = false) :
    jsTrimChars l = l := by
  unfold jsTrimChars
  rw [dropWhile_eq_self_of h,
    dropWhile_eq_self_of (fun c hc => h c (List.mem_reverse.mp hc)),
    List.reverse_reverse]

theorem isSep_of_mem_normPlate {s : String} {c : Char}
    (h : c ∈ (normPlate s).data) : isSepChar c = false := by
  have h2 := (List.mem_filter.mp h).2
  simpa using h2

theorem upper_fixed_of_mem_normPlate {s : String} {c : Char}
    (h : c ∈ (normPlate s).data) : jsToUpper c = c := by
  have h1 := (List.mem_filter.mp h).1
  obtain ⟨d, _, rfl⟩ := List.mem_map.mp h1
  exact jsToUpper_idem d

theorem ws_false_of_mem_normPlate {s : String} {c : Char}
    (h : c ∈ (normPlate s).data) : jsWs c = false := by
  have hsep := isSep_of_mem_normPlate h
  unfold isSepChar at hsep
  simp only [Bool.or_eq_false_iff] at hsep
  exact hsep.1.1

theorem normPlate_chars_eq {L : List Char} (hsep : ∀ c ∈ L, isSepChar c = false)
    (hws : ∀ c ∈ L, jsWs c = false) (hup : ∀ c ∈ L, jsToUpper c = c) :
    ((jsTrimChars L).map jsToUpper).filter (fun c => !isSepChar c) = L := by
  rw [jsTrim_eq_self_of hws, map_eq_self_of hup]
  exact List.filter_eq_self.mpr (fun c hc => by simp [hsep c hc])

theorem normPlate_idem (s : String) : normPlate (normPlate s) = normPlate s := by
  have key := normPlate_chars_eq (L := (normPlate s).data)
    (fun c hc => isSep_of_mem_normPlate hc)
    (fun c hc => ws_false_of_mem_normPlate hc)
    (fun c hc => upper_fixed_of_mem_normPlate hc)
  show String.mk (((jsTrimChars (normPlate s).data).map jsToUpper).filter
    (fun c => !isSepChar c)) = normPlate s
  rw [key]

theorem trimUpper_normPlate (s : String) :
    trimUpper (normPlate s) = normPlate s := by
  show String.mk ((jsTrimChars (normPlate s).data).map jsToUpper) = normPlate s
  rw [jsTrim_eq_self_of (fun c hc => ws_false_of_mem_normPlate hc),
    map_eq_self_of (fun c hc => upper_fixed_of_mem_normPlate hc)]

theorem jsSetDedupAux_not_mem_acc {α : Type} [DecidableEq α] :
    ∀ (l acc : List α) (x : α), x ∈ jsSetDedupAux l acc → x ∉ acc := by
  intro l
  induction l with
  | nil => intro acc x hx; simp [jsSetDedupAux] at hx
  | cons a rest ih =>
    intro acc x hx
    rw [jsSetDedupAux] at hx
    by_cases ha : a ∈ acc
    · rw [if_pos ha] at hx
      exact ih acc x hx
    · rw [if_neg ha] at hx
      rcases List.mem_cons.mp hx with rfl | hx2
      · exact ha
      · intro hxacc
        exact ih (a :: acc) x hx2 (List.mem_cons_of_mem a hxacc)

theorem jsSetDedupAux_nodup {α : Type} [DecidableEq α] :
    ∀ (l acc : List α), (jsSetDedupAux l acc).Nodup := by
  intro l
  induction l with
  | nil => intro acc; exact List.nodup_nil
  | cons a rest ih =>
    intro acc
    rw [jsSetDedupAux]
    by_cases ha : a ∈ acc
    · rw [if_pos ha]; exact ih acc
    · rw [if_neg ha]
      refine List.nodup_cons.mpr ⟨?_, ih (a :: acc)⟩
      intro hmem
      exact jsSetDedupAux_not_mem_acc rest (a :: acc) a hmem (List.mem_cons_self a acc)

theorem jsSetDedup_nodup {α : Type} [DecidableEq α] (l : List α) :
    (jsSetDedup l).Nodup := jsSetDedupAux_nodup l []

theorem jsSetDedup_cons_head {α : Type} [DecidableEq α] (a : α) (l : List α) :
    jsSetDedup (a :: l) = a :: jsSetDedupAux l [a] := by
  rw [jsSetDedup, jsSetDedupAux, if_neg (List.not_mem_nil a)]

/-! ## Claim C1 — plate normalization -/

/-- C1: the plate normalization applied at the whitelist/gate boundary
(`normPlate` in `ui/src/pages/Whitelist.tsx`, the same pipeline inlined in
`addWhitelistPlate` in `ui/src/api.js`) returns the trimmed, uppercased input
with every whitespace, hyphen and underscore character removed; consequently
its result contains none of those characters, and the operation is
idempotent. -/
theorem normPlate_boundary_spec (s : String) :
    normPlate s =
      ⟨((jsTrimChars s.data).map jsToUpper).filter
        (fun c => !(jsWs c || c == '-' || c == '_'))⟩ ∧
    (∀ c ∈ (normPlate s).data, jsWs c = false ∧ c ≠ '-' ∧ c ≠ '_') ∧
    normPlate (normPlate s) = normPlate s := by
  refine ⟨rfl, ?_, normPlate_idem s⟩
  intro c hc
  have h := isSep_of_mem_normPlate hc
  unfold isSepChar at h
  simp only [Bool.or_eq_false_iff, beq_eq_false_iff_ne] at h
  exact ⟨h.1.1, h.1.2, h.2⟩

/-- Witness for C1 at the concrete input `" a-b_c "` (whose normalization is
`"ABC"`) and its first character. -/
theorem normPlate_boundary_spec_witness :
    (jsWs 'A' = false ∧ 'A' ≠ '-' ∧ 'A' ≠ '_') ∧
    normPlate (normPlate " a-b_c ") = normPlate " a-b_c " :=
  ⟨(normPlate_boundary_spec " a-b_c ").2.1 'A' (by decide),
   (normPlate_boundary_spec " a-b_c ").2.2⟩

/-! ## Claim C8 — the whitelist add operation -/

/-- C8 counterexample: the claim says no write happens when the input's
normalized form already occurs in the stored whitelist "after normalizing the
stored entries" — but `addWhitelistPlate` only trims and uppercases the
stored entries (it does not strip separators from them), so adding `"A123"`
to the store `["A 123"]` (whose normalized form is also `"A123"`) does write
and changes the whitelist. -/
theorem addWhitelistPlate_counterexample :
    normPlate "A123" = "A123" ∧
    "A123" ∈ (["A 123"].map normPlate) ∧
    (addWhitelistPlate "A123" ["A 123"]).2 ≠ ["A 123"] := by
  decide

/-- C8 (amended): `addWhitelistPlate` performs no write (the store is
unchanged) when the normalized input already occurs among the stored entries
after trimming and uppercasing them; an input normalizing to the empty string
yields `{ok: false, reason: "empty"}` with the store untouched; a successful
add stores the normalized plate with no duplicate entries; and adding the
same plate twice leaves the store as after the first add. -/
theorem addWhitelistPlate_spec :
    (∀ plate store, normPlate plate = "" →
      addWhitelistPlate plate store = (.err "empty", store)) ∧
    (∀ plate store, normPlate plate ≠ "" →
      normPlate plate ∈ store.map trimUpper →
      addWhitelistPlate plate store = (.ok (normPlate plate), store)) ∧
    (∀ plate store, normPlate plate ≠ "" →
      normPlate plate ∉ store.map trimUpper →
      (addWhitelistPlate plate store).1 = .ok (normPlate plate) ∧
      normPlate plate ∈ (addWhitelistPlate plate store).2 ∧
      (addWhitelistPlate plate store).2.Nodup) ∧
    (∀ plate store,
      (addWhitelistPlate plate ((addWhitelistPlate plate store).2)).2 =
      (addWhitelistPlate plate store).2) := by
  refine ⟨?_, ?_, ?_, ?_⟩
  · intro plate store h
    rw [addWhitelistPlate, if_pos h]
  · intro plate store h1 h2
    rw [addWhitelistPlate, if_neg h1, if_pos h2]
  · intro plate store h1 h2
    rw [addWhitelistPlate, if_neg h1, if_neg h2]
    refine ⟨rfl, ?_, jsSetDedup_nodup _⟩
    rw [jsSetDedup_cons_head]
    exact List.mem_cons_self _ _
  · intro plate store
    by_cases h1 : normPlate plate = ""
    · have e1 : addWhitelistPlate plate store = (.err "empty", store) := by
        rw [addWhitelistPlate, if_pos h1]
      rw [e1]
      show (addWhitelistPlate plate store).2 = store
      rw [e1]
    · by_cases h2 : normPlate plate ∈ store.map trimUpper
      · have e2 : addWhitelistPlate plate store = (.ok (normPlate plate), store) := by
          rw [addWhitelistPlate, if_neg h1, if_pos h2]
        rw [e2]
        show (addWhitelistPlate plate store).2 = store
        rw [e2]
      · have e3 : addWhitelistPlate plate store =
            (.ok (normPlate plate),
              jsSetDedup (normPlate plate :: store.map trimUpper)) := by
          rw [addWhitelistPlate, if_neg h1, if_neg h2]
        rw [e3]
        show (addWhitelistPlate plate
            (jsSetDedup (normPlate plate :: store.map trimUpper))).2 =
          jsSetDedup (normPlate plate :: store.map trimUpper)
        have hmem : normPlate plate ∈
            (jsSetDedup (normPlate plate :: store.map trimUpper)).map trimUpper := by
          rw [jsSetDedup_cons_head, List.map_cons, trimUpper_normPlate]
          exact List.mem_cons_self _ _
        rw [addWhitelistPlate, if_neg h1, if_pos hmem]

/-- Witness for C8: the three branches of `addWhitelistPlate` at concrete
inputs — empty normalization, an already-present plate, and a fresh add
followed by a repeated add. -/
theorem addWhitelistPlate_spec_witness :
    addWhitelistPlate " -_ " ["X1"] = (.err "empty", ["X1"]) ∧
    addWhitelistPlate "b-2" ["b2 "] = (.ok "B2", ["b2 "]) ∧
    ((addWhitelistPlate "C3" []).1 = .ok "C3" ∧
      "C3" ∈ (addWhitelistPlate "C3" []).2 ∧
      (addWhitelistPlate "C3" []).2.Nodup) ∧
    (addWhitelistPlate "D4" ((addWhitelistPlate "D4" ["E5"]).2)).2 =
      (addWhitelistPlate "D4" ["E5"]).2 := by
  refine ⟨?_, ?_, ?_, ?_⟩
  · have h := addWhitelistPlate_spec.1 " -_ " ["X1"] (by decide)
    simpa using h
  · have h := addWhitelistPlate_spec.2.1 "b-2" ["b2 "] (by decide) (by decide)
    simpa using h
  · have h := addWhitelistPlate_spec.2.2.1 "C3" [] (by decide) (by decide)
    simpa using h
  · exact addWhitelistPlate_spec.2.2.2 "D4" ["E5"]

/-! ## Claim C9 — event stream invariants -/

theorem loopInv_ingestOne (st : StreamState) (it : EventItem)
    (hnd : (st.items.map keyOf).Nodup)
    (hcl : ∀ x ∈ st.items, keyOf x ∈ st.seen) :
    ((ingestOne st it).items.map keyOf).Nodup ∧
      ∀ x ∈ (ingestOne st it).items, keyOf x ∈ (ingestOne st it).seen := by
  unfold ingestOne
  cases h : it.ts with
  | none => exact ⟨hnd, hcl⟩
  | some t =>
    dsimp only
    by_cases hk : keyOf it ∈ st.seen
    · rw [if_pos hk]; exact ⟨hnd, hcl⟩
    · rw [if_neg hk]
      constructor
      · dsimp only
        rw [List.map_cons]
        refine List.nodup_cons.mpr ⟨?_, hnd⟩
        intro hmem
        obtain ⟨x, hx, hxe⟩ := List.mem_map.mp hmem
        exact hk (hxe ▸ hcl x hx)
      · intro x hx
        dsimp only at hx ⊢
        rcases List.mem_cons.mp hx with rfl | hx2
        · exact List.mem_cons_self _ _
        · exact List.mem_cons_of_mem _ (hcl x hx2)

theorem loopInv_foldl (batch : List EventItem) :
    ∀ st : StreamState, (st.items.map keyOf).Nodup →
      (∀ x ∈ st.items, keyOf x ∈ st.seen) →
      (((batch.foldl ingestOne st).items.map keyOf).Nodup ∧
        ∀ x ∈ (batch.foldl ingestOne st).items,
          keyOf x ∈ (batch.foldl ingestOne st).seen) := by
  induction batch with
  | nil => intro st h1 h2; exact ⟨h1, h2⟩
  | cons b rest ih =>
    intro st h1 h2
    have h := loopInv_ingestOne st b h1 h2
    exact ih (ingestOne st b) h.1 h.2

theorem inv_ingest (limit : ℕ) (st : StreamState) (batch : List EventItem)
    (hlen : st.items.length ≤ limit)
    (hnd : (st.items.map keyOf).Nodup)
    (hcl : ∀ x ∈ st.items, keyOf x ∈ st.seen) :
    (ingest limit st batch).items.length ≤ limit ∧
      ((ingest limit st batch).items.map keyOf).Nodup ∧
      ∀ x ∈ (ingest limit st batch).items, keyOf x ∈ (ingest limit st batch).seen := by
  unfold ingest
  by_cases hb : batch = []
  · rw [if_pos hb]; exact ⟨hlen, hnd, hcl⟩
  · rw [if_neg hb]
    obtain ⟨h1, h2⟩ := loopInv_foldl batch st hnd hcl
    by_cases hl : limit < (batch.foldl ingestOne st).items.length
    · rw [if_pos hl]
      refine ⟨?_, ?_, ?_⟩
      · dsimp only
        rw [List.length_take]
        exact Nat.min_le_left _ _
      · dsimp only
        exact h1.sublist (((batch.foldl ingestOne st).items.take_sublist limit).map keyOf)
      · intro x hx
        dsimp only at hx ⊢
        exact h2 x (List.take_subset limit _ hx)
    · rw [if_neg hl]
      dsimp only
      exact ⟨by omega, h1, h2⟩

theorem inv_runBatches (limit : ℕ) (batches : List (List EventItem)) :
    (runBatches limit batches).items.length ≤ limit ∧
      ((runBatches limit batches).items.map keyOf).Nodup ∧
      ∀ x ∈ (runBatches limit batches).items,
        keyOf x ∈ (runBatches limit batches).seen := by
  unfold runBatches
  suffices h : ∀ st : StreamState, st.items.length ≤ limit →
      (st.items.map keyOf).Nodup → (∀ x ∈ st.items, keyOf x ∈ st.seen) →
      ((batches.foldl (ingest limit) st).items.length ≤ limit ∧
        ((batches.foldl (ingest limit) st).items.map keyOf).Nodup ∧
        ∀ x ∈ (batches.foldl (ingest limit) st).items,
          keyOf x ∈ (batches.foldl (ingest limit) st).seen) by
    exact h initStreamState (by simp [initStreamState]) (by simp [initStreamState])
      (by simp [initStreamState])
  induction batches with
  | nil => intro st h1 h2 h3; exact ⟨h1, h2, h3⟩
  | cons b rest ih =>
    intro st h1 h2 h3
    obtain ⟨g1, g2, g3⟩ := inv_ingest limit st b h1 h2 h3
    exact ih (ingest limit st b) g1 g2 g3

theorem ingest_seen_noop (limit : ℕ) (st : StreamState) (it : EventItem)
    (hlen : st.items.length ≤ limit) (hk : keyOf it ∈ st.seen) :
    ingest limit st [it] = st := by
  unfold ingest
  rw [if_neg (by simp : ¬([it] = []))]
  have hfold : [it].foldl ingestOne st = st := by
    show ingestOne st it = st
    unfold ingestOne
    cases h : it.ts with
    | none => rfl
    | some t =>
      dsimp only
      rw [if_pos hk]
  rw [hfold, if_neg (by omega)]

/-- C9: after ingesting any sequence of event batches (initial load, SSE,
polling) from the initial state, the list kept by `useEventsStream` never
exceeds the configured limit, no two retained items share the deduplication
key `(ts, plate, status, conf, message)`, and ingesting an event whose key
has already been seen leaves the state unchanged. -/
theorem useEventsStream_invariants (limit : ℕ) (batches : List (List EventItem))
    (it : EventItem) :
    (runBatches limit batches).items.length ≤ limit ∧
    ((runBatches limit batches).items.map keyOf).Nodup ∧
    (keyOf it ∈ (runBatches limit batches).seen →
      ingest limit (runBatches limit batches) [it] = runBatches limit batches) := by
  obtain ⟨h1, h2, h3⟩ := inv_runBatches limit batches
  exact ⟨h1, h2, fun hk => ingest_seen_noop limit _ it h1 hk⟩

/-- Witness for C9: one batch of two concrete events under limit 2, and a
re-ingestion of the first event, which is a no-op. -/
theorem useEventsStream_invariants_witness :
    (runBatches 2 [[evtA, evtB]]).items.length ≤ 2 ∧
    ((runBatches 2 [[evtA, evtB]]).items.map keyOf).Nodup ∧
    ingest 2 (runBatches 2 [[evtA, evtB]]) [evtA] = runBatches 2 [[evtA, evtB]] := by
  obtain ⟨h1, h2, h3⟩ := useEventsStream_invariants 2 [[evtA, evtB]] evtA
  exact ⟨h1, h2, h3 (by decide)⟩

/-! ## Claims C3, C2, C6 — the Gate Decision Engine -/

/-- C3: every Event record the Gate Decision Engine emits has a status in
the set {sent, denied, invalid, cooldown}; no decision cycle produces an
event with a status outside this set.  (The engine is modelled from the
spec, §4.8; the statuses are strings, as serialized to the UI stream.) -/
theorem gateStep_status_closed (cfg : GateCfg) (st : GateState) (r : Reading)
    (ev : GEvent) (h : (gateStep cfg st r).1 = some ev) :
    ev.status = "sent" ∨ ev.status = "denied" ∨ ev.status = "invalid" ∨
      ev.status = "cooldown" := by
  unfold gateStep at h
  split_ifs at h <;> dsimp only at h <;>
    (try obtain rfl := (Option.some.injEq _ _).mp h.symm) <;> simp_all [mkEvent]

/-- Witness for C3: a concrete low-confidence reading emits a `denied`
event, whose status the theorem places in the allowed set. -/
theorem gateStep_status_closed_witness :
    evLowConf.status = "sent" ∨ evLowConf.status = "denied" ∨
      evLowConf.status = "invalid" ∨ evLowConf.status = "cooldown" :=
  gateStep_status_closed cfgLowConf initGateState readLow evLowConf (by decide)

theorem gateStep_first_reading :
    gateStep cfgConfirm initGateState (readAt 0 1) =
      (none, updateState initGateState "A123BC77" ⟨1, 0, none⟩) := by
  have hn : normPlate "A123BC77" = "A123BC77" := by decide
  unfold gateStep readAt cfgConfirm
  norm_num [hn, cooldownActive, initGateState, nextCount]

theorem gateStep_second_reading :
    gateStep cfgConfirm (updateState initGateState "A123BC77" ⟨1, 0, none⟩)
        (readAt 1 1) =
      (some ⟨1, "A123BC77", "A123BC77", 1, "sent", "ok"⟩,
       updateState (updateState initGateState "A123BC77" ⟨1, 0, none⟩)
         "A123BC77" ⟨0, 0, some 16⟩) := by
  have hn : normPlate "A123BC77" = "A123BC77" := by decide
  unfold gateStep readAt cfgConfirm
  norm_num [hn, cooldownActive, nextCount, updateState, mkEvent]

theorem stAfterTwo_eq :
    stAfterTwo = updateState (updateState initGateState "A123BC77" ⟨1, 0, none⟩)
      "A123BC77" ⟨0, 0, some 16⟩ := by
  unfold stAfterTwo
  rw [gateStep_first_reading]
  dsimp only
  rw [gateStep_second_reading]

theorem gateStep_cooldown_reading (t conf : ℚ) (h1 : 1 < t) (h2 : t < 16)
    (h3 : 1 ≤ conf) :
    gateStep cfgConfirm stAfterTwo (readAt t conf) =
      (some ⟨t, "A123BC77", "A123BC77", conf, "cooldown", "cooldown_active"⟩,
       stAfterTwo) := by
  have hn : normPlate "A123BC77" = "A123BC77" := by decide
  have hca : cooldownActive stAfterTwo "A123BC77" t = true := by
    rw [stAfterTwo_eq]
    simp [cooldownActive, updateState]
    exact h2
  unfold gateStep readAt cfgConfirm
  rw [hn]
  rw [if_neg (by simp)]
  rw [if_neg (by simpa using not_lt.mpr h3)]
  rw [if_pos (by simpa using hca)]
  rfl

theorem no_sent_during_cooldown (cfg : GateCfg) (st : GateState) (r : Reading)
    (ps : PlateState) (cu : ℚ) (ev : GEvent)
    (hst : st (normPlate r.text) = some ps)
    (hcu : ps.cooldownUntil = some cu)
    (ht : r.t < cu)
    (hev : (gateStep cfg st r).1 = some ev) :
    ev.status ≠ "sent" := by
  have hca : cooldownActive st (normPlate r.text) r.t = true := by
    unfold cooldownActive
    rw [hst]
    dsimp only
    rw [hcu]
    dsimp only
    simpa using ht
  unfold gateStep at hev
  split_ifs at hev <;>
    (try obtain rfl := (Option.some.injEq _ _).mp hev.symm) <;> simp_all [mkEvent]

/-- C2: with `confirm_n = 2`, `confirm_window_sec = 2.0`, `cooldown_sec = 15`
(`cfgConfirm`) and the whitelisted plate, two matching readings 1.0 s apart
produce exactly one `sent` event (the first reading emits nothing, the second
emits `sent`); every further reading of the plate while the cooldown runs
(any `t` with `1 < t < 16`) yields a `cooldown` event and leaves the state
unchanged (no publish action); and in general no reading of a plate with an
active cooldown can ever emit `sent`.  (Engine modelled from the spec,
§4.8.) -/
theorem confirm_cooldown_cycle :
    (gateStep cfgConfirm initGateState (readAt 0 1)).1 = none ∧
    (gateStep cfgConfirm (gateStep cfgConfirm initGateState (readAt 0 1)).2
        (readAt 1 1)).1 =
      some ⟨1, "A123BC77", "A123BC77", 1, "sent", "ok"⟩ ∧
    (∀ t conf : ℚ, 1 < t → t < 16 → 1 ≤ conf →
      (gateStep cfgConfirm stAfterTwo (readAt t conf)).1 =
        some ⟨t, "A123BC77", "A123BC77", conf, "cooldown", "cooldown_active"⟩ ∧
      (gateStep cfgConfirm stAfterTwo (readAt t conf)).2 = stAfterTwo) ∧
    (∀ (cfg : GateCfg) (st : GateState) (r : Reading) (ps : PlateState) (cu : ℚ)
        (ev : GEvent),
      st (normPlate r.text) = some ps → ps.cooldownUntil = some cu → r.t < cu →
      (gateStep cfg st r).1 = some ev → ev.status ≠ "sent") := by
  refine ⟨?_, ?_, ?_, no_sent_during_cooldown⟩
  · rw [gateStep_first_reading]
  · rw [gateStep_first_reading]
    dsimp only
    rw [gateStep_second_reading]
  · intro t conf h1 h2 h3
    rw [gateStep_cooldown_reading t conf h1 h2 h3]
    exact ⟨rfl, rfl⟩

/-- Witness for C2: the cooldown-reading part at `t = 5`, and the
no-`sent`-during-cooldown part at a concrete in-cooldown state. -/
theorem confirm_cooldown_cycle_witness :
    (gateStep cfgConfirm initGateState (readAt 0 1)).1 = none ∧
    (gateStep cfgConfirm (gateStep cfgConfirm initGateState (readAt 0 1)).2
        (readAt 1 1)).1 =
      some ⟨1, "A123BC77", "A123BC77", 1, "sent", "ok"⟩ ∧
    ((gateStep cfgConfirm stAfterTwo (readAt 5 1)).1 =
        some ⟨5, "A123BC77", "A123BC77", 1, "cooldown", "cooldown_active"⟩ ∧
      (gateStep cfgConfirm stAfterTwo (readAt 5 1)).2 = stAfterTwo) ∧
    (⟨5, "P123", "P123", 1, "cooldown", "cooldown_active"⟩ : GEvent).status ≠ "sent" := by
  obtain ⟨h1, h2, h3, h4⟩ := confirm_cooldown_cycle
  refine ⟨h1, h2, h3 5 1 (by decide) (by decide) (by decide), ?_⟩
  exact h4 cfgConfirm (updateState initGateState "P123" ⟨0, 0, some 16⟩)
    ⟨"P123", 1, 5⟩ ⟨0, 0, some 16⟩ 16 _ (by decide) (by decide) (by decide) (by decide)

/-- C6: when a plate absent from the whitelist reaches `confirm_n` matching
readings inside the confirm window (state at `confirm_n - 1` plus one more
matching reading), the engine emits `denied` with reason `not_in_whitelist`
and starts a cooldown of `cooldown_sec`, and no further reading of that plate
inside the cooldown can produce another `not_in_whitelist` denial (nor a
`sent`).  (Engine modelled from the spec, §4.8.) -/
theorem denied_not_in_whitelist (cfg : GateCfg) (st : GateState) (r : Reading)
    (c : ℕ) (ws : ℚ)
    (hfmt : cfg.formatCheck = false)
    (hconf : cfg.minConf ≤ r.conf)
    (hst : st (normPlate r.text) = some ⟨c, ws, none⟩)
    (hc : 0 < c)
    (hwin : r.t - ws ≤ cfg.confirmWindowSec)
    (hn2 : cfg.confirmN ≤ c + 1)
    (hwl : normPlate r.text ∉ cfg.whitelist) :
    (gateStep cfg st r).1 =
      some (mkEvent r (normPlate r.text) "denied" "not_in_whitelist") ∧
    (gateStep cfg st r).2 (normPlate r.text) =
      some ⟨0, ws, some (r.t + cfg.cooldownSec)⟩ ∧
    (∀ (r' : Reading) (ev : GEvent), normPlate r'.text = normPlate r.text →
      r'.t < r.t + cfg.cooldownSec →
      (gateStep cfg (gateStep cfg st r).2 r').1 = some ev →
      ¬(ev.status = "denied" ∧ ev.reason = "not_in_whitelist") ∧
        ev.status ≠ "sent") := by
  have hca : cooldownActive st (normPlate r.text) r.t = false := by
    unfold cooldownActive
    rw [hst]
  have hnc : nextCount st (normPlate r.text) r.t cfg.confirmWindowSec = (c + 1, ws) := by
    unfold nextCount
    rw [hst]
    dsimp only
    rw [if_pos ⟨hc, hwin⟩]
  have estep : gateStep cfg st r =
      (some (mkEvent r (normPlate r.text) "denied" "not_in_whitelist"),
       updateState st (normPlate r.text) ⟨0, ws, some (r.t + cfg.cooldownSec)⟩) := by
    unfold gateStep
    rw [hfmt]
    rw [if_neg (by simp), if_neg (not_lt.mpr hconf), if_neg (by simp [hca]), hnc]
    dsimp only
    rw [if_pos hn2, if_neg hwl]
  refine ⟨by rw [estep], ?_, ?_⟩
  · rw [estep]
    dsimp only [updateState]
    rw [if_pos rfl]
  · intro r' ev hsame ht hev
    rw [estep] at hev
    dsimp only at hev
    have hlook : (updateState st (normPlate r.text)
        ⟨0, ws, some (r.t + cfg.cooldownSec)⟩) (normPlate r'.text) =
        some ⟨0, ws, some (r.t + cfg.cooldownSec)⟩ := by
      rw [hsame]
      dsimp only [updateState]
      rw [if_pos rfl]
    have hca2 : cooldownActive (updateState st (normPlate r.text)
        ⟨0, ws, some (r.t + cfg.cooldownSec)⟩) (normPlate r'.text) r'.t = true := by
      unfold cooldownActive
      rw [hlook]
      dsimp only
      simpa using ht
    unfold gateStep at hev
    rw [hfmt] at hev
    rw [if_neg (by simp)] at hev
    by_cases hlc : r'.conf < cfg.minConf
    · rw [if_pos hlc] at hev
      obtain rfl := (Option.some.injEq _ _).mp hev.symm
      exact ⟨by simp [mkEvent], by simp [mkEvent]⟩
    · rw [if_neg hlc, if_pos hca2] at hev
      obtain rfl := (Option.some.injEq _ _).mp hev.symm
      exact ⟨by simp [mkEvent], by simp [mkEvent]⟩

/-- Witness for C6: the concrete non-whitelisted plate `B777XX` confirming
under `cfgDeny`, then a low-confidence reading during its cooldown, which is
denied only for `low_conf`. -/
theorem denied_not_in_whitelist_witness :
    (gateStep cfgDeny stDeny readDeny).1 =
      some (mkEvent readDeny (normPlate readDeny.text) "denied" "not_in_whitelist") ∧
    (gateStep cfgDeny stDeny readDeny).2 (normPlate readDeny.text) =
      some ⟨0, 0, some (readDeny.t + cfgDeny.cooldownSec)⟩ ∧
    ¬((⟨5, "B777XX", "B777XX", 0, "denied", "low_conf"⟩ : GEvent).status = "denied" ∧
        (⟨5, "B777XX", "B777XX", 0, "denied", "low_conf"⟩ : GEvent).reason = "not_in_whitelist") ∧
      (⟨5, "B777XX", "B777XX", 0, "denied", "low_conf"⟩ : GEvent).status ≠ "sent" := by
  obtain ⟨h1, h2, h3⟩ := denied_not_in_whitelist cfgDeny stDeny readDeny 1 0
    (by decide) (by decide) (by decide) (by decide)
    (le_trans (le_of_eq (sub_self 0)) (by decide : (0 : ℚ) ≤ 2))
    (by decide) (by decide)
  refine ⟨h1, h2, ?_⟩
  exact h3 ⟨"B777XX", 0, 5⟩ ⟨5, "B777XX", "B777XX", 0, "denied", "low_conf"⟩
    (by decide)
    (lt_of_lt_of_eq (by decide : (5 : ℚ) < 15) (zero_add 15).symm)
    (by decide)

/-! ## Claim C4 — best-crop selection -/

theorem mem_insertByScore {x c : Candidate} {l : List Candidate} :
    x ∈ insertByScore c l ↔ x = c ∨ x ∈ l := by
  induction l with
  | nil => simp [insertByScore]
  | cons a as ih =>
    unfold insertByScore
    by_cases h : score a ≤ score c
    · rw [if_pos h]
      simp [List.mem_cons]
    · rw [if_neg h]
      simp only [List.mem_cons, ih]
      tauto

theorem sorted_insertByScore {c : Candidate} {l : List Candidate}
    (h : l.Pairwise (fun a b => score b ≤ score a)) :
    (insertByScore c l).Pairwise (fun a b => score b ≤ score a) := by
  induction l with
  | nil => simp [insertByScore]
  | cons a as ih =>
    rw [List.pairwise_cons] at h
    unfold insertByScore
    by_cases hle : score a ≤ score c
    · rw [if_pos hle]
      refine List.pairwise_cons.mpr ⟨?_, List.pairwise_cons.mpr h⟩
      intro y hy
      rcases List.mem_cons.mp hy with rfl | hy2
      · exact hle
      · exact le_trans (h.1 y hy2) hle
    · rw [if_neg hle]
      refine List.pairwise_cons.mpr ⟨?_, ih h.2⟩
      intro y hy
      rcases mem_insertByScore.mp hy with rfl | hy2
      · exact le_of_not_le hle
      · exact h.1 y hy2

theorem mem_sortByScore {x : Candidate} {l : List Candidate} :
    x ∈ sortByScore l ↔ x ∈ l := by
  induction l with
  | nil => simp [sortByScore]
  | cons a as ih => simp [sortByScore, mem_insertByScore, ih]

theorem sorted_sortByScore (l : List Candidate) :
    (sortByScore l).Pairwise (fun a b => score b ≤ score a) := by
  induction l with
  | nil => simp [sortByScore]
  | cons a as ih => exact sorted_insertByScore ih

/-- C4: within one best-crop window with `max_send = 1`, among all buffered
sanity-passed candidates exactly the candidate maximizing
`confidence × area_ratio × sharpness` is forwarded and every other candidate
is discarded.  (Selector modelled from the spec, §4.6 / README best-crop
ENV.) -/
theorem bestCrop_selects_unique_max (buf : List Candidate) (m : Candidate)
    (hm : m ∈ buf) (hmax : ∀ x ∈ buf, x ≠ m → score x < score m) :
    selectBest 1 buf = [m] := by
  unfold selectBest
  rcases hsort : sortByScore buf with _ | ⟨h, t⟩
  · exfalso
    have hmem : m ∈ sortByScore buf := mem_sortByScore.mpr hm
    rw [hsort] at hmem
    simp at hmem
  · have hhmem : h ∈ buf :=
      mem_sortByScore.mp (by rw [hsort]; exact List.mem_cons_self _ _)
    have hhm : h = m := by
      by_contra hne
      have hlt : score h < score m := hmax h hhmem hne
      have hmmem : m ∈ h :: t := by
        rw [← hsort]
        exact mem_sortByScore.mpr hm
      rcases List.mem_cons.mp hmmem with rfl | hmt
      · exact hne rfl
      · have hp := sorted_sortByScore buf
        rw [hsort] at hp
        exact absurd hlt (not_lt.mpr ((List.pairwise_cons.mp hp).1 m hmt))
    rw [hhm]
    rfl

/-- Witness for C4: three candidates with scores 0.42, 0.55, 0.30 — only
the 0.55-score candidate is forwarded. -/
theorem bestCrop_selects_unique_max_witness :
    selectBest 1 [candA, candB, candC] = [candB] := by
  have sA : score candA = mkRat 42 100 := by
    rw [score]
    show mkRat 42 100 * 1 * 1 = _
    rw [mul_one, mul_one]
  have sB : score candB = mkRat 55 100 := by
    rw [score]
    show mkRat 55 100 * 1 * 1 = _
    rw [mul_one, mul_one]
  have sC : score candC = mkRat 30 100 := by
    rw [score]
    show mkRat 30 100 * 1 * 1 = _
    rw [mul_one, mul_one]
  refine bestCrop_selects_unique_max [candA, candB, candC] candB (by decide) ?_
  intro x hx hne
  simp only [List.mem_cons, List.not_mem_nil, or_false] at hx
  rcases hx with rfl | rfl | rfl
  · rw [sA, sB]
    decide
  · exact absurd rfl hne
  · rw [sC, sB]
    decide

/-! ## Claims C5, C7 — sanity filter and camera test -/

/-- C5: a 165×100 crop (aspect 1.65) with confidence 0.80 and area ratio
0.01 passes the sanity filter under base 1.80 / adaptive 1.60 /
`conf_min` 0.75 / `area_min` 0.0065, the identical crop at confidence 0.60
fails, and in general the adaptive lower aspect threshold replaces the base
threshold exactly when both the confidence and the bbox area ratio reach
their adaptive minimums.  (Filter modelled from the spec, §4.5 / README
sanity ENV.) -/
theorem sanity_adaptive_rule :
    sanityPass sanityCfg0 cropHigh = true ∧
    sanityPass sanityCfg0 cropLow = false ∧
    (∀ (cfg : SanityCfg) (c : CropInfo),
      (sanityAdaptiveTrigger cfg c = true →
        (sanityPass cfg c = true ↔
          cfg.minWidthPx ≤ c.width ∧ cfg.minHeightPx ≤ c.height ∧
            cfg.aspectMinAdaptive < c.width / c.height)) ∧
      (sanityAdaptiveTrigger cfg c = false →
        (sanityPass cfg c = true ↔
          cfg.minWidthPx ≤ c.width ∧ cfg.minHeightPx ≤ c.height ∧
            cfg.aspectMinBase < c.width / c.height))) := by
  refine ⟨?_, ?_, ?_⟩
  · norm_num [sanityPass, sanityAspectMin, sanityAdaptiveTrigger, sanityCfg0, cropHigh]
  · norm_num [sanityPass, sanityAspectMin, sanityAdaptiveTrigger, sanityCfg0, cropLow]
  · intro cfg c
    constructor
    · intro h
      unfold sanityPass sanityAspectMin
      rw [if_pos h]
      simp
    · intro h
      unfold sanityPass sanityAspectMin
      rw [if_neg (by simp [h])]
      simp

/-- Witness for C5: the low-confidence crop does not trigger the adaptive
relaxation, so the base threshold governs it. -/
theorem sanity_adaptive_rule_witness :
    sanityPass sanityCfg0 cropHigh = true ∧
    (sanityPass sanityCfg0 cropLow = true ↔
      sanityCfg0.minWidthPx ≤ cropLow.width ∧
        sanityCfg0.minHeightPx ≤ cropLow.height ∧
        sanityCfg0.aspectMinBase < cropLow.width / cropLow.height) :=
  ⟨sanity_adaptive_rule.1,
   (sanity_adaptive_rule.2.2 sanityCfg0 cropLow).2 (by decide)⟩

/-- C7: `testCamera` posts `timeout_sec = 6.0` with its request, and for
every HTTP response that is not ok with status `s` it resolves to the value
`{ok: false, error: "http_" + s, detail: body}` instead of throwing (the
embedding is a total function of the two possible responses). -/
theorem testCamera_error_as_value :
    (∀ url, (testCameraPayload url).timeoutSec = 6) ∧
    (∀ r1 r2 : HttpResp, respOk (fetchWithFallback [404] r1 r2) = false →
      testCamera r1 r2 =
        .failure ("http_" ++ jsNatToString (fetchWithFallback [404] r1 r2).status)
          (fetchWithFallback [404] r1 r2).body) := by
  refine ⟨fun _ => rfl, ?_⟩
  intro r1 r2 h
  unfold testCamera
  rw [h]
  simp

/-- Witness for C7: a 500 response from both endpoints yields the
`http_500` failure value. -/
theorem testCamera_error_as_value_witness :
    (testCameraPayload "rtsp://cam").timeoutSec = 6 ∧
    testCamera ⟨500, "boom"⟩ ⟨200, "ok"⟩ = .failure "http_500" "boom" := by
  obtain ⟨h1, h2⟩ := testCamera_error_as_value
  refine ⟨h1 "rtsp://cam", ?_⟩
  have h3 := h2 ⟨500, "boom"⟩ ⟨200, "ok"⟩ (by decide)
  have e : fetchWithFallback [404] ⟨500, "boom"⟩ ⟨200, "ok"⟩ =
      (⟨500, "boom"⟩ : HttpResp) := by decide
  rw [e] at h3
  have e2 : "http_" ++ jsNatToString (500 : ℕ) = "http_500" := by decide
  rw [show ((⟨500, "boom"⟩ : HttpResp).status) = (500 : ℕ) from rfl,
    show ((⟨500, "boom"⟩ : HttpResp).body) = "boom" from rfl, e2] at h3
  exact h3

/-! ## Claim C10 — ROI parsing -/

theorem roiCheck_eq_spec (l : List (Option ℚ)) : roiCheck l = roiSpecCheck l := by
  match l with
  | [] => rfl
  | [a] => cases a <;> rfl
  | [a, b] => cases a <;> cases b <;> rfl
  | [a, b, c] => cases a <;> cases b <;> cases c <;> rfl
  | [none, b, c, d] => rfl
  | [some a, none, c, d] => rfl
  | [some a, some b, none, d] => rfl
  | [some a, some b, some c, none] => rfl
  | [some a, some b, some c, some d] =>
    unfold roiCheck roiSpecCheck
    rw [if_neg (by simp)]
    dsimp only
    by_cases h : a < c ∧ b < d
    · rw [if_neg (by simpa using not_or.mpr ⟨not_le.mpr h.1, not_le.mpr h.2⟩),
        if_pos h]
    · rw [if_pos ?side, if_neg h]
      case side =>
        rcases not_and_or.mp h with h1 | h2
        · exact Or.inl (not_lt.mp h1)
        · exact Or.inr (not_lt.mp h2)
  | a :: b :: c :: d :: e :: rest =>
    cases a <;> cases b <;> cases c <;> cases d <;> rfl

theorem roiPolyCheck_eq_corners (l : List (Option ℚ)) :
    roiPolyCheck l = roiCorners (roiCheck l) := by
  match l with
  | [] => rfl
  | [a] => cases a <;> rfl
  | [a, b] => cases a <;> cases b <;> rfl
  | [a, b, c] => cases a <;> cases b <;> cases c <;> rfl
  | [none, b, c, d] => rfl
  | [some a, none, c, d] => rfl
  | [some a, some b, none, d] => rfl
  | [some a, some b, some c, none] => rfl
  | [some a, some b, some c, some d] =>
    unfold roiPolyCheck roiCheck
    rw [if_neg (by simp), if_neg (by simp)]
    dsimp only
    by_cases h : c ≤ a ∨ d ≤ b
    · rw [if_pos h, if_pos h]
      rfl
    · rw [if_neg h, if_neg h]
      rfl
  | a :: b :: c :: d :: e :: rest =>
    cases a <;> cases b <;> cases c <;> cases d <;> rfl

/-- C10: ROI string parsing is total (a Lean function, never throwing):
`parseRoiStr` returns a rectangle exactly when the input splits on commas
into four finite numbers `x1, y1, x2, y2` with `x2 > x1` and `y2 > y1`
(`roiSpecParse`), returning `null` otherwise — including the empty string,
wrong arity and non-numeric fields — and `parseRoiStrAsPoly` returns that
rectangle's corners, or the empty list in exactly the `null` cases. -/
theorem parseRoi_total_spec (s : String) :
    parseRoiStr s = roiSpecParse s ∧
    parseRoiStrAsPoly s = roiCorners (parseRoiStr s) := by
  constructor
  · rw [parseRoiStr, roiSpecParse, roiCheck_eq_spec]
  · rw [parseRoiStrAsPoly, parseRoiStr, roiPolyCheck_eq_corners]

end GateBox
